import Mathlib

/-!
Shallow embedding of the logic-bearing surface of the attorney-chatbot
repository: the conversation-readiness classifier `shouldTriggerSearch`
and the prompt assembler `enhancePromptForSearch` from
`src/app/api/chatbot/route.ts`, and the two POST handlers
(`src/app/api/chatbot/route.ts`, `src/app/api/lisa/route.ts`) with the
external chat-completion call modelled as an oracle.

Strings are modelled as Lean `String` / `List Char`; the two JavaScript
regular expressions are embedded as decidable whole-segment matchers with
explicit word-boundary (`\b`) semantics, quantified over all match
positions, which coincides with `RegExp.test` (existence of a match).
Character classes (`\w`, `\s`, `[a-z]`) follow the ECMAScript definitions;
lower-casing is modelled on the ASCII range, which covers every character
the two patterns can match.
-/

namespace AttorneyChatbot

/-- The role a conversation turn carries: the union type
`'user' | 'assistant' | 'system'` of the `ChatMessage` interface. -/
inductive Role where
  | user : Role
  | assistant : Role
  | system : Role
deriving DecidableEq, Repr

/-- One conversation turn: `interface ChatMessage \x7b role; content \x7d`. -/
structure ChatMessage where
  role : Role
  content : String
deriving DecidableEq, Repr

/-- ECMAScript regex word characters: the class `\w` is `[A-Za-z0-9_]`. -/
def isWordChar (c : Char) : Bool :=
  ('a' ≤ c && c ≤ 'z') || ('A' ≤ c && c ≤ 'Z') || ('0' ≤ c && c ≤ '9') || c = '_'

/-- The character class `[a-z]` of the two patterns. -/
def isLowerAZ (c : Char) : Bool :=
  'a' ≤ c && c ≤ 'z'

/-- ECMAScript regex whitespace: the class `\s` (WhiteSpace and
LineTerminator code points). -/
def isSpaceJS (c : Char) : Bool :=
  c = ' ' || c = '\t' || c = '\n' || c = '\r' || c.val = 11 || c.val = 12 ||
  c.val = 0xa0 || c.val = 0x1680 || (0x2000 ≤ c.val && c.val ≤ 0x200a) ||
  c.val = 0x2028 || c.val = 0x2029 || c.val = 0x202f || c.val = 0x205f ||
  c.val = 0x3000 || c.val = 0xfeff

/-- Whether position `i` of `s` holds a word character (`false` past the end). -/
def wordAt (s : List Char) (i : Nat) : Bool :=
  match s.get? i with
  | some c => isWordChar c
  | none => false

/-- ECMAScript `\b`: a word boundary between positions `i - 1` and `i` of `s`
(exactly one of the two sides is a word character). -/
def boundary (s : List Char) (i : Nat) : Bool :=
  ((decide (0 < i)) && wordAt s (i - 1)) != wordAt s i

/-- The segment `s[i..j)` of a character list. -/
def seg (s : List Char) (i j : Nat) : List Char :=
  (s.take j).drop i

/-- A non-empty run of `[a-z]` characters: what `[a-z]+` matches. -/
def lowerWord (l : List Char) : Bool :=
  !l.isEmpty && l.all isLowerAZ

/-- The four literal alternatives `city|state|located|live` of the location
pattern, matched against a whole segment. -/
def altLiteral (l : List Char) : Bool :=
  decide (l = "city".data) || decide (l = "state".data) ||
  decide (l = "located".data) || decide (l = "live".data)

/-- The alternative `in [a-z]+ [a-z]+` of the location pattern, matched
against a whole segment. -/
def altIn (l : List Char) : Bool :=
  match l with
  | 'i' :: 'n' :: ' ' :: rest =>
    (List.range rest.length).any fun k =>
      decide (rest.get? k = some ' ') && lowerWord (rest.take k) &&
        lowerWord (rest.drop (k + 1))
  | _ => false

/-- The alternative `[a-z]+,\s*[a-z]{2}` of the location pattern, matched
against a whole segment. -/
def altCity (l : List Char) : Bool :=
  (List.range l.length).any fun k =>
    decide (l.get? k = some ',') && lowerWord (l.take k) &&
      (match (l.drop (k + 1)).reverse with
       | b :: a :: sp => isLowerAZ a && isLowerAZ b && sp.all isSpaceJS
       | _ => false)

/-- Whether the location regex
`\b(city|state|located|live|in [a-z]+ [a-z]+|[a-z]+,\s*[a-z]\x7b2\x7d)\b`
matches the segment `s[i..j)` of `s` (word boundaries at both ends). -/
def locationMatchAt (s : List Char) (i j : Nat) : Bool :=
  boundary s i && boundary s j &&
    (altLiteral (seg s i j) || altIn (seg s i j) || altCity (seg s i j))

/-- `RegExp.test` of the location regex from `shouldTriggerSearch`: some
segment of `s` matches one of the alternatives between word boundaries. -/
def hasLocation (s : List Char) : Bool :=
  (List.range (s.length + 1)).any fun i =>
    (List.range (s.length + 1)).any fun j => locationMatchAt s i j

/-- The fixed vocabulary of the legal-issue regex in `shouldTriggerSearch`. -/
def legalTerms : List String :=
  ["divorce", "custody", "criminal", "injury", "contract", "employment",
   "immigration", "bankruptcy", "estate", "personal injury", "family law",
   "criminal defense", "civil litigation", "real estate", "business law",
   "tax law", "intellectual property"]

/-- Whether one of the legal-issue alternatives matches at position `i` of
`s`, with word boundaries at both ends (the `\b(...)\b` of the regex). -/
def legalMatchAt (s : List Char) (i : Nat) : Bool :=
  legalTerms.any fun t =>
    decide ((s.drop i).take t.data.length = t.data) &&
      boundary s i && boundary s (i + t.data.length)

/-- `RegExp.test` of the legal-issue regex from `shouldTriggerSearch`. -/
def hasLegalIssue (s : List Char) : Bool :=
  (List.range (s.length + 1)).any fun i => legalMatchAt s i

/-- `Array.prototype.join(' ')` on the character level: the pieces
concatenated with one space between consecutive pieces. -/
def joinSpace : List (List Char) → List Char
  | [] => []
  | [x] => x
  | x :: xs => x ++ ' ' :: joinSpace xs

/-- `messages.map(msg => msg.content).join(' ').toLowerCase()`: the
lower-cased concatenation of all turn bodies, separated by single spaces,
as a character sequence (lower-casing on the ASCII range, which covers
every character the two patterns can match). -/
def conversationText (messages : List ChatMessage) : List Char :=
  (joinSpace (messages.map fun msg => msg.content.data)).map Char.toLower

/-- `shouldTriggerSearch` from `src/app/api/chatbot/route.ts`: true when the
conversation text matches both the legal-issue and the location regex. -/
def shouldTriggerSearch (messages : List ChatMessage) : Bool :=
  let conversation := conversationText messages
  hasLegalIssue conversation && hasLocation conversation

/-- The baseline instruction text `systemPrompt` of
`src/app/api/chatbot/route.ts`. -/
def systemPrompt : String :=
  "You are a professional legal assistant chatbot that helps users find qualified attorneys. Follow this EXACT flow:

**STEP 1: Inquire about legal issues**
- Ask empathetic, professional questions about the user's legal situation
- Get them to describe their legal problem in detail

**STEP 2: Identify legal problems**
- Based on their description, identify the specific area of law (family, criminal, personal injury, etc.)
- Confirm the legal issue with them

**STEP 3: Ask for city and state**
- ONLY after identifying the legal issue, ask for their city and state
- Say something like: \"To help you find attorneys in your area, could you please provide your city and state?\"

**STEP 4: Search for attorneys**
- ONLY after you have both the legal issue AND location, you MUST use web search to find exactly three attorneys who can help with the user's legal issue in their location.

SEARCH REQUIREMENTS:
- You MUST perform a web search when you have both the legal issue and location
- Search for terms like: \"[legal issue] attorney [city] [state]\" or \"[legal issue] lawyer [city] [state]\"
- Find attorneys with current contact information and websites
- Verify they handle the specific legal issue mentioned

For each attorney, format the information as a structured list:

- **[Attorney Name](website_url)** (or just **Attorney Name** if no website)
  - **Phone:** [phone number]
  - **Location:** [address/city/state]
  - **Practice Area:** [specific practice area]

Format the results as a clean markdown list with each attorney as a main list item containing sub-items for their details. Do not include extra commentary, summaries, or explanations beyond the attorney information. Only output the list of attorneys as described above. If you cannot find three, return as many as you can. If you cannot find any, say so clearly.

CRITICAL: Do not skip steps. Do not search until you have both the legal issue and the city/state. Do not provide general legal advice. Only focus on finding attorneys.
CRITICAL: If phone is not available, do not include it in the output.
When searching, be specific and thorough. Use multiple search strategies if needed to find qualified attorneys in the user's area."

/-- The suffix appended to the baseline prompt when the classifier fires:
the explicit search-now directive of `enhancePromptForSearch`. -/
def searchNowDirective : String :=
  "\n\nIMPORTANT: Based on the conversation, you now have both the legal issue and location. You MUST immediately perform a web search to find attorneys. Do not ask for more information. Search now using terms like \"[legal issue] attorney [city] [state]\" or similar variations."

/-- `enhancedSystemPrompt`: the template literal
`\x7bsystemPrompt\x7d\n\nIMPORTANT: ...` of the source. -/
def enhancedSystemPrompt : String :=
  systemPrompt ++ searchNowDirective

/-- `enhancePromptForSearch` from `src/app/api/chatbot/route.ts`: prepends a
system turn (augmented when the classifier fires) and drops the first input
turn (`messages.slice(1)`). -/
def enhancePromptForSearch (messages : List ChatMessage) : List ChatMessage :=
  if shouldTriggerSearch messages then
    ⟨Role.system, enhancedSystemPrompt⟩ :: messages.drop 1
  else
    ⟨Role.system, systemPrompt⟩ :: messages.drop 1

/-- An opaque annotation record from the completion service (`any[]` in the
source): pass-through data, modelled as a key-value map. -/
structure AnnotationRecord where
  fields : List (String × String)
deriving DecidableEq, Repr

/-- The part of `completion.choices[0].message` the handlers read: `content`
and `annotations`, each possibly null or absent. -/
structure Completion where
  content : Option String
  annotations : Option (List AnnotationRecord)
deriving DecidableEq, Repr

/-- One outbound `openai.chat.completions.create` call: the model name, the
message payload and the `max_tokens` cap (web search is always enabled). -/
structure OutboundCall where
  model : String
  messages : List ChatMessage
  maxTokens : Nat
deriving DecidableEq, Repr

/-- The result a POST handler returns to the caller: a 400 body, a 500 body,
or the 200 body with response text, annotations and `searchTriggered`. -/
inductive ApiResult where
  | clientError (error : String) : ApiResult
  | serverError (error : String) : ApiResult
  | success (message : String) (annotations : List AnnotationRecord)
      (searchTriggered : Bool) : ApiResult
deriving DecidableEq, Repr

/-- What a POST handler produces: its result and the ordered list of
outbound completion calls it attempted. -/
structure HandlerOutcome where
  result : ApiResult
  calls : List OutboundCall
deriving DecidableEq, Repr

/-- The `messages` field of the parsed request body: absent (or otherwise
falsy), present but not an array, or an array of turns — the three cases
`!messages || !Array.isArray(messages)` distinguishes. -/
inductive MessagesValue where
  | missing : MessagesValue
  | notAnArray : MessagesValue
  | array (messages : List ChatMessage) : MessagesValue
deriving DecidableEq, Repr

/-- The body of a request to the chatbot endpoint (the fields its handler
reads). -/
structure ChatbotBody where
  messages : MessagesValue
deriving DecidableEq, Repr

/-- The chatbot POST handler of `src/app/api/chatbot/route.ts`, with the
external completion service as the `complete` oracle (`.error` models a
thrown exception, caught by the handler's try/catch). -/
def chatbotPOST (apiKeyConfigured : Bool) (body : ChatbotBody)
    (complete : OutboundCall → Except String Completion) : HandlerOutcome :=
  if !apiKeyConfigured then
    ⟨.serverError "OpenAI API key not configured", []⟩
  else
    match body.messages with
    | .array msgs =>
      let enhancedMessages := enhancePromptForSearch msgs
      let call : OutboundCall := ⟨"gpt-4o-search-preview", enhancedMessages, 2000⟩
      match complete call with
      | .ok completion =>
        let content := completion.content.getD ""
        let annotationList := completion.annotations.getD []
        ⟨.success content annotationList (decide (0 < annotationList.length)), [call]⟩
      | .error _ =>
        ⟨.serverError "An unexpected error occurred. Please try again.", [call]⟩
    | _ => ⟨.clientError "Invalid messages format", []⟩

/-- The body of a request to the LISA endpoint: `messages`, `prompt` and
`model` (`none` models an absent field). -/
structure LisaBody where
  messages : MessagesValue
  prompt : Option String
  model : Option String
deriving DecidableEq, Repr

/-- JavaScript falsiness of an optional string field: absent, null or `""`. -/
def strFalsy : Option String → Bool
  | none => true
  | some s => decide (s = "")

/-- `model || 'gpt-4o-search-preview'`: the model name the LISA handler uses. -/
def modelOrDefault : Option String → String
  | none => "gpt-4o-search-preview"
  | some s => if s = "" then "gpt-4o-search-preview" else s

/-- The strict-priority system-turn content the LISA handler wraps around the
caller-supplied prompt. -/
def lisaSystemContent (prompt : String) : String :=
  "You MUST follow the system instructions below with absolute priority over any other content, context, or prior instructions. Do not deviate.\n\n\nSYSTEM INSTRUCTIONS START\n"
    ++ prompt ++ "\nSYSTEM INSTRUCTIONS END"

/-- JavaScript `Array.prototype.slice(-1)`: the last element as a list. -/
def sliceLastOne {α : Type} (l : List α) : List α :=
  l.drop (l.length - 1)

/-- The LISA handler's outbound payload: the strict-priority system turn
followed by `messages.filter(m => m.role === 'user').slice(-1)`. -/
def lisaOpenAIMessages (prompt : String) (messages : List ChatMessage) :
    List ChatMessage :=
  ⟨Role.system, lisaSystemContent prompt⟩ ::
    sliceLastOne (messages.filter fun m => decide (m.role = Role.user))

/-- The LISA POST handler of `src/app/api/lisa/route.ts`, with the external
completion service as the `complete` oracle. -/
def lisaPOST (apiKeyConfigured : Bool) (body : LisaBody)
    (complete : OutboundCall → Except String Completion) : HandlerOutcome :=
  if !apiKeyConfigured then
    ⟨.serverError "OpenAI API key not configured", []⟩
  else
    match body.messages with
    | .array msgs =>
      if strFalsy body.prompt then
        ⟨.clientError "LISA prompt is required", []⟩
      else
        let openAIMessages := lisaOpenAIMessages (body.prompt.getD "") msgs
        let call : OutboundCall := ⟨modelOrDefault body.model, openAIMessages, 3000⟩
        match complete call with
        | .ok completion =>
          let content := completion.content.getD ""
          let annotationList := completion.annotations.getD []
          ⟨.success content annotationList (decide (0 < annotationList.length)), [call]⟩
        | .error _ =>
          ⟨.serverError "An unexpected error occurred. Please try again.", [call]⟩
    | _ => ⟨.clientError "Invalid messages format", []⟩

/-- A fixed external completion oracle used to instantiate the handler
theorems at concrete inputs: it always succeeds with a fixed response. -/
def constComplete : OutboundCall → Except String Completion :=
  fun _ => Except.ok ⟨some "ok", some []⟩

/-- A non-empty all-`[a-z]` word, stated propositionally: what the spec
calls a lowercase word. -/
def IsLowerWord (l : List Char) : Prop :=
  l ≠ [] ∧ ∀ c ∈ l, isLowerAZ c = true

/-- The location test as the spec describes it: some segment of the text
lying between word boundaries is one of the literal words
city/state/located/live, or the word `in` followed by a two-word lowercase
sequence, or a lowercase word followed by a comma, optional whitespace and a
two-letter lowercase code. -/
def LocationSpec (s : List Char) : Prop :=
  ∃ i j, boundary s i = true ∧ boundary s j = true ∧
    (seg s i j = "city".data ∨ seg s i j = "state".data ∨
     seg s i j = "located".data ∨ seg s i j = "live".data ∨
     (∃ w1 w2, IsLowerWord w1 ∧ IsLowerWord w2 ∧
       seg s i j = 'i' :: 'n' :: ' ' :: (w1 ++ ' ' :: w2)) ∨
     (∃ w sp a b, IsLowerWord w ∧ (∀ c ∈ sp, isSpaceJS c = true) ∧
       isLowerAZ a = true ∧ isLowerAZ b = true ∧
       seg s i j = w ++ ',' :: (sp ++ [a, b])))

theorem shouldTriggerSearch_eq (messages : List ChatMessage) :
    shouldTriggerSearch messages =
      (hasLegalIssue (conversationText messages) &&
        hasLocation (conversationText messages)) := rfl

/-- C1: the classifier returns true exactly when the lower-cased
concatenation of all turn bodies matches both the legal-issue and the
location pattern; a transcript matching only one of the two tests yields
false, a transcript matching both yields true wherever the terms sit, and
the empty transcript yields false. -/
theorem c1_classifier_both_tests :
    (∀ messages : List ChatMessage,
      (shouldTriggerSearch messages = true ↔
        hasLegalIssue (conversationText messages) = true ∧
          hasLocation (conversationText messages) = true) ∧
      (hasLegalIssue (conversationText messages) = true →
        hasLocation (conversationText messages) = true →
          shouldTriggerSearch messages = true) ∧
      (hasLegalIssue (conversationText messages) = true →
        hasLocation (conversationText messages) = false →
          shouldTriggerSearch messages = false) ∧
      (hasLocation (conversationText messages) = true →
        hasLegalIssue (conversationText messages) = false →
          shouldTriggerSearch messages = false)) ∧
    shouldTriggerSearch [] = false := by
  refine ⟨fun messages => ⟨?_, ?_, ?_, ?_⟩, by decide⟩
  · rw [shouldTriggerSearch_eq, Bool.and_eq_true]
  · intro h1 h2
    rw [shouldTriggerSearch_eq, h1, h2]
    rfl
  · intro h1 h2
    rw [shouldTriggerSearch_eq, h1, h2]
    rfl
  · intro h1 h2
    rw [shouldTriggerSearch_eq, h2, h1]
    rfl

/-- C2 counterexample: on the input whose single turn is a user turn, the
assembler's output omits that (non-system) turn, so the output is not the
constructed system turn followed by the non-system turns of the input. -/
theorem c2_counterexample :
    (enhancePromptForSearch [⟨Role.user, "hi"⟩]).tail ≠
      List.filter (fun m => decide (m.role ≠ Role.system))
        [⟨Role.user, "hi"⟩] := by
  have h : shouldTriggerSearch [⟨Role.user, "hi"⟩] = false := by decide
  simp [enhancePromptForSearch, h]

/-- C2 amended: the assembler's output is the single system turn it
constructs followed by exactly the input turns with the first input turn
removed (whatever its role), in their input order. -/
theorem c2_assembler_shape (messages : List ChatMessage) :
    (enhancePromptForSearch messages).head?.map (fun m => m.role) =
        some Role.system ∧
    (enhancePromptForSearch messages).tail = messages.drop 1 := by
  unfold enhancePromptForSearch
  split <;> exact ⟨rfl, rfl⟩

/-- C3: the system turn emitted first by the assembler carries exactly the
baseline instruction text when the verdict is false, and exactly the
baseline text concatenated with the search-now directive when it is true. -/
theorem c3_system_turn_content (messages : List ChatMessage) :
    (enhancePromptForSearch messages).head? =
      some ⟨Role.system,
        if shouldTriggerSearch messages then systemPrompt ++ searchNowDirective
        else systemPrompt⟩ := by
  unfold enhancePromptForSearch
  split <;> rfl

/-- C8: the assembler drops the first input turn unconditionally — its
output is the constructed system turn followed by `messages.drop 1` — so a
non-system first turn that does not reappear later is absent from the
outbound payload. -/
theorem c8_first_turn_dropped (messages : List ChatMessage) (m : ChatMessage)
    (_hhead : messages.head? = some m) (hrole : m.role ≠ Role.system)
    (hrest : m ∉ messages.drop 1) :
    enhancePromptForSearch messages =
      (if shouldTriggerSearch messages then
        (⟨Role.system, enhancedSystemPrompt⟩ : ChatMessage)
       else ⟨Role.system, systemPrompt⟩) :: messages.drop 1 ∧
    m ∉ enhancePromptForSearch messages := by
  have hshape : enhancePromptForSearch messages =
      (if shouldTriggerSearch messages then
        (⟨Role.system, enhancedSystemPrompt⟩ : ChatMessage)
       else ⟨Role.system, systemPrompt⟩) :: messages.drop 1 := by
    unfold enhancePromptForSearch
    split <;> rfl
  refine ⟨hshape, ?_⟩
  rw [hshape]
  intro hmem
  rcases List.mem_cons.mp hmem with heq | hmem'
  · apply hrole
    rw [heq]
    split <;> rfl
  · exact hrest hmem'

/-- C8 witness: the theorem instantiated at the one-turn transcript whose
only turn is a user turn. -/
theorem c8_witness :
    enhancePromptForSearch [⟨Role.user, "hi"⟩] =
      (if shouldTriggerSearch [⟨Role.user, "hi"⟩] then
        (⟨Role.system, enhancedSystemPrompt⟩ : ChatMessage)
       else ⟨Role.system, systemPrompt⟩) ::
        List.drop 1 [⟨Role.user, "hi"⟩] ∧
    (⟨Role.user, "hi"⟩ : ChatMessage) ∉
      enhancePromptForSearch [⟨Role.user, "hi"⟩] :=
  c8_first_turn_dropped [⟨Role.user, "hi"⟩] ⟨Role.user, "hi"⟩ rfl
    (by decide) (by decide)

/-- C9: the classifier's verdict depends only on the sequence of turn
content strings, never on the turn roles. -/
theorem c9_role_independence (messages1 messages2 : List ChatMessage)
    (h : messages1.map (fun m => m.content) =
      messages2.map (fun m => m.content)) :
    shouldTriggerSearch messages1 = shouldTriggerSearch messages2 := by
  have h2 : messages1.map (fun m => m.content.data) =
      messages2.map (fun m => m.content.data) := by
    have h3 := congrArg (List.map String.data) h
    simpa [List.map_map, Function.comp] using h3
  unfold shouldTriggerSearch conversationText
  rw [h2]

/-- C9 witness: two transcripts with equal contents and different roles get
the same verdict. -/
theorem c9_witness :
    ([⟨Role.user, "divorce"⟩, ⟨Role.user, "live"⟩] : List ChatMessage).map
        (fun m => m.content) =
      ([⟨Role.system, "divorce"⟩, ⟨Role.assistant, "live"⟩] :
        List ChatMessage).map (fun m => m.content) ∧
    shouldTriggerSearch [⟨Role.user, "divorce"⟩, ⟨Role.user, "live"⟩] =
      shouldTriggerSearch
        [⟨Role.system, "divorce"⟩, ⟨Role.assistant, "live"⟩] :=
  ⟨rfl, c9_role_independence _ _ rfl⟩

theorem sliceLastOne_eq {α : Type} (l : List α) :
    sliceLastOne l = l.getLast?.toList := by
  induction l with
  | nil => rfl
  | cons a t ih =>
    cases t with
    | nil => rfl
    | cons b t' =>
      have h1 : sliceLastOne (a :: b :: t') = sliceLastOne (b :: t') := by
        simp [sliceLastOne]
      rw [h1, ih, List.getLast?_cons_cons]

theorem chatbotPOST_eval (body : ChatbotBody)
    (complete : OutboundCall → Except String Completion)
    (msgs : List ChatMessage)
    (hm : body.messages = MessagesValue.array msgs) :
    chatbotPOST true body complete =
      (match complete ⟨"gpt-4o-search-preview",
          enhancePromptForSearch msgs, 2000⟩ with
       | Except.ok completion =>
         ⟨ApiResult.success (completion.content.getD "")
            (completion.annotations.getD [])
            (decide (0 < (completion.annotations.getD []).length)),
          [⟨"gpt-4o-search-preview", enhancePromptForSearch msgs, 2000⟩]⟩
       | Except.error _ =>
         ⟨ApiResult.serverError
            "An unexpected error occurred. Please try again.",
          [⟨"gpt-4o-search-preview", enhancePromptForSearch msgs, 2000⟩]⟩) := by
  unfold chatbotPOST
  rw [hm]
  rfl

theorem chatbotPOST_malformed (body : ChatbotBody)
    (complete : OutboundCall → Except String Completion)
    (hbad : ∀ msgs, body.messages ≠ MessagesValue.array msgs) :
    chatbotPOST true body complete =
      ⟨ApiResult.clientError "Invalid messages format", []⟩ := by
  unfold chatbotPOST
  cases hmv : body.messages with
  | array msgs => exact absurd hmv (hbad msgs)
  | missing => rfl
  | notAnArray => rfl

theorem lisaPOST_eval (body : LisaBody)
    (complete : OutboundCall → Except String Completion)
    (msgs : List ChatMessage)
    (hm : body.messages = MessagesValue.array msgs) :
    lisaPOST true body complete =
      (if strFalsy body.prompt then
        ⟨ApiResult.clientError "LISA prompt is required", []⟩
       else
        match complete ⟨modelOrDefault body.model,
            lisaOpenAIMessages (body.prompt.getD "") msgs, 3000⟩ with
        | Except.ok completion =>
          ⟨ApiResult.success (completion.content.getD "")
             (completion.annotations.getD [])
             (decide (0 < (completion.annotations.getD []).length)),
           [⟨modelOrDefault body.model,
             lisaOpenAIMessages (body.prompt.getD "") msgs, 3000⟩]⟩
        | Except.error _ =>
          ⟨ApiResult.serverError
             "An unexpected error occurred. Please try again.",
           [⟨modelOrDefault body.model,
             lisaOpenAIMessages (body.prompt.getD "") msgs, 3000⟩]⟩) := by
  unfold lisaPOST
  rw [hm]
  rfl

theorem lisaPOST_malformed (body : LisaBody)
    (complete : OutboundCall → Except String Completion)
    (hbad : ∀ msgs, body.messages ≠ MessagesValue.array msgs) :
    lisaPOST true body complete =
      ⟨ApiResult.clientError "Invalid messages format", []⟩ := by
  unfold lisaPOST
  cases hmv : body.messages with
  | array msgs => exact absurd hmv (hbad msgs)
  | missing => rfl
  | notAnArray => rfl

theorem length_pos_decide {α : Type} [DecidableEq α] (l : List α) :
    decide (0 < l.length) = decide (l ≠ []) := by
  cases l <;> simp

/-- C5: in the LISA flow the payload of the one outbound completion call is
exactly one system turn followed by the most recent user turn of the input
(and by nothing when the input has no user turn): all earlier turns and all
non-user turns are omitted. -/
theorem c5_lisa_outbound_payload (body : LisaBody)
    (complete : OutboundCall → Except String Completion)
    (msgs : List ChatMessage) (p : String)
    (hm : body.messages = MessagesValue.array msgs)
    (hp : body.prompt = some p) (hne : p ≠ "") :
    (lisaPOST true body complete).calls =
      [⟨modelOrDefault body.model,
        ⟨Role.system, lisaSystemContent p⟩ ::
          (msgs.filter fun m => decide (m.role = Role.user)).getLast?.toList,
        3000⟩] := by
  have hfalsy : strFalsy body.prompt = false := by
    rw [hp]
    simpa [strFalsy] using hne
  rw [lisaPOST_eval body complete msgs hm, if_neg (by rw [hfalsy]; simp)]
  have hmsg : lisaOpenAIMessages (body.prompt.getD "") msgs =
      ⟨Role.system, lisaSystemContent p⟩ ::
        (msgs.filter fun m => decide (m.role = Role.user)).getLast?.toList := by
    rw [hp]
    unfold lisaOpenAIMessages
    rw [sliceLastOne_eq]
    rfl
  rw [hmsg]
  cases complete ⟨modelOrDefault body.model,
      ⟨Role.system, lisaSystemContent p⟩ ::
        (msgs.filter fun m => decide (m.role = Role.user)).getLast?.toList,
      3000⟩ <;> rfl

/-- C5 witness: the theorem instantiated at a three-turn transcript whose
most recent user turn is the third turn. -/
theorem c5_witness :
    (lisaPOST true
      ⟨MessagesValue.array
        [⟨Role.user, "a"⟩, ⟨Role.assistant, "b"⟩, ⟨Role.user, "c"⟩],
       some "analyze", none⟩ constComplete).calls =
      [⟨modelOrDefault none,
        ⟨Role.system, lisaSystemContent "analyze"⟩ ::
          (List.filter (fun m => decide (m.role = Role.user))
            [⟨Role.user, "a"⟩, ⟨Role.assistant, "b"⟩,
             ⟨Role.user, "c"⟩]).getLast?.toList,
        3000⟩] :=
  c5_lisa_outbound_payload _ constComplete _ "analyze" rfl rfl (by decide)

/-- C6 counterexample: a LISA request whose turn list is a well-formed
(empty) sequence but whose prompt is absent is still rejected by the core's
own logic with a client error, so malformed turn input is not the only
error condition the core raises. -/
theorem c6_counterexample :
    (lisaPOST true ⟨MessagesValue.array [], none, none⟩
        constComplete).result =
      ApiResult.clientError "LISA prompt is required" ∧
    (⟨MessagesValue.array [], none, none⟩ : LisaBody).messages =
      MessagesValue.array [] :=
  ⟨rfl, rfl⟩

/-- C6 amended: a missing or non-sequence turn list is rejected by both
handlers with the invalid-messages client error before any outbound
completion call is attempted; in the chatbot flow this is the only
client-error condition, while the LISA flow additionally rejects a missing
or empty prompt. -/
theorem c6_malformed_input_rejected :
    (∀ (body : ChatbotBody)
        (complete : OutboundCall → Except String Completion),
      (∀ msgs, body.messages ≠ MessagesValue.array msgs) →
        chatbotPOST true body complete =
          ⟨ApiResult.clientError "Invalid messages format", []⟩) ∧
    (∀ (body : LisaBody)
        (complete : OutboundCall → Except String Completion),
      (∀ msgs, body.messages ≠ MessagesValue.array msgs) →
        lisaPOST true body complete =
          ⟨ApiResult.clientError "Invalid messages format", []⟩) ∧
    (∀ (body : ChatbotBody)
        (complete : OutboundCall → Except String Completion) (e : String),
      (chatbotPOST true body complete).result = ApiResult.clientError e →
        e = "Invalid messages format" ∧
          ∀ msgs, body.messages ≠ MessagesValue.array msgs) ∧
    (∀ (body : LisaBody)
        (complete : OutboundCall → Except String Completion) (e : String),
      (lisaPOST true body complete).result = ApiResult.clientError e →
        (∀ msgs, body.messages ≠ MessagesValue.array msgs) ∨
          strFalsy body.prompt = true) := by
  refine ⟨fun body complete hbad => chatbotPOST_malformed body complete hbad,
    fun body complete hbad => lisaPOST_malformed body complete hbad, ?_, ?_⟩
  · intro body complete e hres
    cases hmv : body.messages with
    | array msgs =>
      rw [chatbotPOST_eval body complete msgs hmv] at hres
      cases hc : complete ⟨"gpt-4o-search-preview",
          enhancePromptForSearch msgs, 2000⟩ <;>
        rw [hc] at hres <;> simp at hres
    | missing =>
      have hbad : ∀ msgs, body.messages ≠ MessagesValue.array msgs :=
        fun msgs h => by rw [hmv] at h; exact MessagesValue.noConfusion h
      rw [chatbotPOST_malformed body complete hbad] at hres
      simp only [ApiResult.clientError.injEq] at hres
      exact ⟨hres.symm, fun msgs h => MessagesValue.noConfusion h⟩
    | notAnArray =>
      have hbad : ∀ msgs, body.messages ≠ MessagesValue.array msgs :=
        fun msgs h => by rw [hmv] at h; exact MessagesValue.noConfusion h
      rw [chatbotPOST_malformed body complete hbad] at hres
      simp only [ApiResult.clientError.injEq] at hres
      exact ⟨hres.symm, fun msgs h => MessagesValue.noConfusion h⟩
  · intro body complete e hres
    cases hmv : body.messages with
    | array msgs =>
      cases hfalsy : strFalsy body.prompt with
      | true => exact Or.inr rfl
      | false =>
        rw [lisaPOST_eval body complete msgs hmv,
          if_neg (by rw [hfalsy]; simp)] at hres
        cases hc : complete ⟨modelOrDefault body.model,
            lisaOpenAIMessages (body.prompt.getD "") msgs, 3000⟩ <;>
          rw [hc] at hres <;> simp at hres
    | missing => exact Or.inl fun msgs h => MessagesValue.noConfusion h
    | notAnArray => exact Or.inl fun msgs h => MessagesValue.noConfusion h

/-- C7: on a successful completion, each handler returns the response text,
the annotation sequence passed through unmodified, and a searchTriggered
flag that is true exactly when at least one annotation record is present. -/
theorem c7_success_response
    (complete : OutboundCall → Except String Completion)
    (completion : Completion) (cbody : ChatbotBody) (lbody : LisaBody)
    (cmsgs lmsgs : List ChatMessage)
    (hcm : cbody.messages = MessagesValue.array cmsgs)
    (hcc : complete ⟨"gpt-4o-search-preview",
        enhancePromptForSearch cmsgs, 2000⟩ = Except.ok completion)
    (hlm : lbody.messages = MessagesValue.array lmsgs)
    (hlp : strFalsy lbody.prompt = false)
    (hlc : complete ⟨modelOrDefault lbody.model,
        lisaOpenAIMessages (lbody.prompt.getD "") lmsgs, 3000⟩ =
      Except.ok completion) :
    (chatbotPOST true cbody complete).result =
      ApiResult.success (completion.content.getD "")
        (completion.annotations.getD [])
        (decide (completion.annotations.getD [] ≠ [])) ∧
    (lisaPOST true lbody complete).result =
      ApiResult.success (completion.content.getD "")
        (completion.annotations.getD [])
        (decide (completion.annotations.getD [] ≠ [])) := by
  constructor
  · rw [chatbotPOST_eval cbody complete cmsgs hcm, hcc,
      ← length_pos_decide]
  · rw [lisaPOST_eval lbody complete lmsgs hlm,
      if_neg (by rw [hlp]; simp), hlc, ← length_pos_decide]

/-- C7 witness: both handlers instantiated with the constant oracle and
concrete one-turn bodies. -/
theorem c7_witness :
    (chatbotPOST true ⟨MessagesValue.array [⟨Role.user, "hello"⟩]⟩
        constComplete).result =
      ApiResult.success
        ((some "ok").getD "")
        ((some ([] : List AnnotationRecord)).getD [])
        (decide ((some ([] : List AnnotationRecord)).getD [] ≠ [])) ∧
    (lisaPOST true
        ⟨MessagesValue.array [⟨Role.user, "hello"⟩], some "p", none⟩
        constComplete).result =
      ApiResult.success
        ((some "ok").getD "")
        ((some ([] : List AnnotationRecord)).getD [])
        (decide ((some ([] : List AnnotationRecord)).getD [] ≠ [])) :=
  c7_success_response constComplete ⟨some "ok", some []⟩ _ _
    [⟨Role.user, "hello"⟩] [⟨Role.user, "hello"⟩]
    rfl rfl rfl (by decide) rfl

/-- C10: the LISA handler rejects every request whose prompt field is
missing or empty with a client error and no outbound call, and when the
turn list is well-formed the error is exactly the prompt-required error. -/
theorem c10_lisa_prompt_required (body : LisaBody)
    (complete : OutboundCall → Except String Completion)
    (hfalsy : strFalsy body.prompt = true) :
    (lisaPOST true body complete).calls = [] ∧
    (∃ e, (lisaPOST true body complete).result = ApiResult.clientError e) ∧
    (∀ msgs, body.messages = MessagesValue.array msgs →
      (lisaPOST true body complete).result =
        ApiResult.clientError "LISA prompt is required") := by
  cases hmv : body.messages with
  | array msgs =>
    rw [lisaPOST_eval body complete msgs hmv, if_pos hfalsy]
    exact ⟨rfl, ⟨"LISA prompt is required", rfl⟩, fun _ _ => rfl⟩
  | missing =>
    have hbad : ∀ msgs, body.messages ≠ MessagesValue.array msgs :=
      fun msgs h => by rw [hmv] at h; exact MessagesValue.noConfusion h
    rw [lisaPOST_malformed body complete hbad]
    exact ⟨rfl, ⟨"Invalid messages format", rfl⟩,
      fun msgs h => absurd h (fun hh => MessagesValue.noConfusion hh)⟩
  | notAnArray =>
    have hbad : ∀ msgs, body.messages ≠ MessagesValue.array msgs :=
      fun msgs h => by rw [hmv] at h; exact MessagesValue.noConfusion h
    rw [lisaPOST_malformed body complete hbad]
    exact ⟨rfl, ⟨"Invalid messages format", rfl⟩,
      fun msgs h => absurd h (fun hh => MessagesValue.noConfusion hh)⟩

/-- C10 witness: a well-formed one-turn transcript with an empty prompt
string. -/
theorem c10_witness :
    (lisaPOST true
        ⟨MessagesValue.array [⟨Role.user, "hello"⟩], some "", none⟩
        constComplete).calls = [] ∧
    (∃ e, (lisaPOST true
        ⟨MessagesValue.array [⟨Role.user, "hello"⟩], some "", none⟩
        constComplete).result = ApiResult.clientError e) ∧
    (∀ msgs,
      (⟨MessagesValue.array [⟨Role.user, "hello"⟩], some "", none⟩ :
        LisaBody).messages = MessagesValue.array msgs →
      (lisaPOST true
          ⟨MessagesValue.array [⟨Role.user, "hello"⟩], some "", none⟩
          constComplete).result =
        ApiResult.clientError "LISA prompt is required") :=
  c10_lisa_prompt_required _ constComplete (by decide)

theorem boundary_le {s : List Char} {i : Nat} (h : boundary s i = true) :
    i ≤ s.length := by
  by_contra hgt
  push_neg at hgt
  have h1 : wordAt s i = false := by
    unfold wordAt
    rw [List.get?_eq_none.mpr (Nat.le_of_lt hgt)]
  have h2 : wordAt s (i - 1) = false := by
    unfold wordAt
    rw [List.get?_eq_none.mpr (by omega)]
  unfold boundary at h
  rw [h1, h2] at h
  simp at h

theorem lowerWord_iff (l : List Char) : lowerWord l = true ↔ IsLowerWord l := by
  unfold lowerWord IsLowerWord
  rw [Bool.and_eq_true, List.all_eq_true]
  constructor
  · rintro ⟨h1, h2⟩
    refine ⟨?_, h2⟩
    intro hnil
    rw [hnil] at h1
    simp at h1
  · rintro ⟨h1, h2⟩
    refine ⟨?_, h2⟩
    cases l with
    | nil => exact absurd rfl h1
    | cons a t => rfl

theorem altIn_cons (rest : List Char) :
    altIn ('i' :: 'n' :: ' ' :: rest) =
      ((List.range rest.length).any fun k =>
        decide (rest.get? k = some ' ') && lowerWord (rest.take k) &&
          lowerWord (rest.drop (k + 1))) := rfl

theorem list_eq_take_cons_drop {α : Type} {l : List α} {k : Nat} {c : α}
    (h : l.get? k = some c) :
    l = l.take k ++ c :: l.drop (k + 1) := by
  obtain ⟨hlt, hget⟩ := List.get?_eq_some.mp h
  conv_lhs => rw [← List.take_append_drop k l]
  rw [List.drop_eq_get_cons hlt, hget]

theorem altIn_iff (l : List Char) :
    altIn l = true ↔ ∃ w1 w2, IsLowerWord w1 ∧ IsLowerWord w2 ∧
      l = 'i' :: 'n' :: ' ' :: (w1 ++ ' ' :: w2) := by
  constructor
  · intro h
    unfold altIn at h
    split at h
    next rest =>
      rw [List.any_eq_true] at h
      obtain ⟨k, hk, hcond⟩ := h
      rw [Bool.and_eq_true, Bool.and_eq_true, decide_eq_true_eq] at hcond
      obtain ⟨⟨hsp, hw1⟩, hw2⟩ := hcond
      refine ⟨rest.take k, rest.drop (k + 1),
        (lowerWord_iff _).mp hw1, (lowerWord_iff _).mp hw2, ?_⟩
      rw [← list_eq_take_cons_drop hsp]
    next => exact absurd h (by simp)
  · rintro ⟨w1, w2, hw1, hw2, rfl⟩
    rw [altIn_cons, List.any_eq_true]
    refine ⟨w1.length, ?_, ?_⟩
    · rw [List.mem_range, List.length_append, List.length_cons]
      omega
    · rw [Bool.and_eq_true, Bool.and_eq_true, decide_eq_true_eq]
      refine ⟨⟨?_, ?_⟩, ?_⟩
      · rw [List.get?_append_right (le_refl _), Nat.sub_self]
        rfl
      · rw [List.take_left]
        exact (lowerWord_iff _).mpr hw1
      · have hsplit : w1 ++ ' ' :: w2 = (w1 ++ [' ']) ++ w2 := by simp
        have hlen : w1.length + 1 = (w1 ++ [' ']).length := by simp
        rw [hsplit, hlen, List.drop_left]
        exact (lowerWord_iff _).mpr hw2

theorem altCity_iff (l : List Char) :
    altCity l = true ↔ ∃ w sp a b, IsLowerWord w ∧
      (∀ c ∈ sp, isSpaceJS c = true) ∧ isLowerAZ a = true ∧
      isLowerAZ b = true ∧ l = w ++ ',' :: (sp ++ [a, b]) := by
  unfold altCity
  rw [List.any_eq_true]
  constructor
  · rintro ⟨k, hk, hcond⟩
    rw [Bool.and_eq_true, Bool.and_eq_true, decide_eq_true_eq] at hcond
    obtain ⟨⟨hcomma, hw⟩, hrest⟩ := hcond
    split at hrest
    next b a sp heq =>
      rw [Bool.and_eq_true, Bool.and_eq_true] at hrest
      obtain ⟨⟨ha, hb⟩, hsp⟩ := hrest
      refine ⟨l.take k, sp.reverse, a, b, (lowerWord_iff _).mp hw, ?_, ha, hb, ?_⟩
      · intro c hc
        rw [List.all_eq_true] at hsp
        exact hsp c (List.mem_reverse.mp hc)
      · have hdrop : l.drop (k + 1) = sp.reverse ++ [a, b] := by
          have h2 := congrArg List.reverse heq
          rw [List.reverse_reverse] at h2
          rw [h2]
          simp
        rw [← hdrop]
        exact list_eq_take_cons_drop hcomma
    next => exact absurd hrest (by simp)
  · rintro ⟨w, sp, a, b, hw, hsp, ha, hb, rfl⟩
    refine ⟨w.length, ?_, ?_⟩
    · rw [List.mem_range, List.length_append, List.length_cons]
      omega
    · rw [Bool.and_eq_true, Bool.and_eq_true, decide_eq_true_eq]
      refine ⟨⟨?_, ?_⟩, ?_⟩
      · rw [List.get?_append_right (le_refl _), Nat.sub_self]
        rfl
      · rw [List.take_left]
        exact (lowerWord_iff _).mpr hw
      · have hsplit : w ++ ',' :: (sp ++ [a, b]) = (w ++ [',']) ++ (sp ++ [a, b]) := by
          simp
        have hlen : w.length + 1 = (w ++ [',']).length := by simp
        rw [hsplit, hlen, List.drop_left]
        have h2 : (sp ++ [a, b]).reverse = b :: a :: sp.reverse := by simp
        rw [h2]
        change (isLowerAZ a && isLowerAZ b && sp.reverse.all isSpaceJS) = true
        rw [List.all_reverse, Bool.and_eq_true, Bool.and_eq_true]
        exact ⟨⟨ha, hb⟩, List.all_eq_true.mpr hsp⟩

/-- C4: the classifier's location test matches exactly when the lower-cased
text contains, between word boundaries, one of the literal words city,
state, located or live, or the word in followed by a two-word lowercase
sequence, or a lowercase word followed by a comma, optional whitespace and
a two-letter lowercase code. -/
theorem c4_location_test_characterization (s : List Char) :
    hasLocation s = true ↔ LocationSpec s := by
  unfold hasLocation LocationSpec
  rw [List.any_eq_true]
  constructor
  · rintro ⟨i, hi, hj⟩
    rw [List.any_eq_true] at hj
    obtain ⟨j, hjr, hm⟩ := hj
    unfold locationMatchAt at hm
    rw [Bool.and_eq_true, Bool.and_eq_true] at hm
    obtain ⟨⟨hbi, hbj⟩, halt⟩ := hm
    rw [Bool.or_eq_true, Bool.or_eq_true] at halt
    refine ⟨i, j, hbi, hbj, ?_⟩
    rcases halt with (hlit | hin) | hcity
    · unfold altLiteral at hlit
      rw [Bool.or_eq_true, Bool.or_eq_true, Bool.or_eq_true] at hlit
      rcases hlit with ((h1 | h2) | h3) | h4
      · exact Or.inl (of_decide_eq_true h1)
      · exact Or.inr (Or.inl (of_decide_eq_true h2))
      · exact Or.inr (Or.inr (Or.inl (of_decide_eq_true h3)))
      · exact Or.inr (Or.inr (Or.inr (Or.inl (of_decide_eq_true h4))))
    · exact Or.inr (Or.inr (Or.inr (Or.inr (Or.inl ((altIn_iff _).mp hin)))))
    · exact Or.inr (Or.inr (Or.inr (Or.inr (Or.inr
        ((altCity_iff _).mp hcity)))))
  · rintro ⟨i, j, hbi, hbj, halt⟩
    refine ⟨i, List.mem_range.mpr (Nat.lt_succ_of_le (boundary_le hbi)), ?_⟩
    rw [List.any_eq_true]
    refine ⟨j, List.mem_range.mpr (Nat.lt_succ_of_le (boundary_le hbj)), ?_⟩
    unfold locationMatchAt
    rw [Bool.and_eq_true, Bool.and_eq_true]
    refine ⟨⟨hbi, hbj⟩, ?_⟩
    rw [Bool.or_eq_true, Bool.or_eq_true]
    rcases halt with h | h | h | h | h | h
    · exact Or.inl (Or.inl (by unfold altLiteral; rw [h]; simp))
    · exact Or.inl (Or.inl (by unfold altLiteral; rw [h]; simp))
    · exact Or.inl (Or.inl (by unfold altLiteral; rw [h]; simp))
    · exact Or.inl (Or.inl (by unfold altLiteral; rw [h]; simp))
    · exact Or.inl (Or.inr ((altIn_iff _).mpr (by
        obtain ⟨w1, w2, h1, h2, heq⟩ := h
        exact ⟨w1, w2, h1, h2, heq⟩)))
    · exact Or.inr ((altCity_iff _).mpr (by
        obtain ⟨w, sp, a, b, h1, h2, h3, h4, heq⟩ := h
        exact ⟨w, sp, a, b, h1, h2, h3, h4, heq⟩))
